import Mathlib

/-!
Shallow embedding of the heuristic AI-vs-human text detector
(`detector.py`): tokenization, sentence segmentation, the nine
stylometric features, and the fixed linear model with a logistic squash.
Texts are lists of Unicode code points (`List Char`); real-valued
quantities are modelled in `ℝ`.  Character classification functions
(`lower`, `isupper`, `isdigit`) are modelled on their ASCII behaviour,
which is the range the detector's token pattern `[A-Za-z0-9']` and its
punctuation set exercise.
-/

namespace Detector

/-- ASCII model of Python `str.lower` applied to one character:
uppercase `A`-`Z` (code points 65-90) map 32 code points up. -/
def lowerChar (c : Char) : Char :=
  if 65 ≤ c.toNat && c.toNat ≤ 90 then Char.ofNat (c.toNat + 32) else c

/-- Model of `text.lower()` as used in `predict`. -/
def pyLower (s : List Char) : List Char := s.map lowerChar

/-- Characters matched by the first alternative `[A-Za-z0-9']` of `WORD_RE`. -/
def isWordChar (c : Char) : Bool :=
  (65 ≤ c.toNat && c.toNat ≤ 90) || (97 ≤ c.toNat && c.toNat ≤ 122) ||
    (48 ≤ c.toNat && c.toNat ≤ 57) || c = '\''

/-- Characters matched by the second alternative of `WORD_RE`:
the CJK Unified Ideographs range U+4E00 - U+9FFF. -/
def isCJK (c : Char) : Bool :=
  0x4e00 ≤ c.toNat && c.toNat ≤ 0x9fff

/-- Sentence delimiters of `SENTENCE_RE`, `[.!?？！。；;]`. -/
def isSentenceDelim (c : Char) : Bool :=
  c = '.' || c = '!' || c = '?' || c = '？' || c = '！' || c = '。' || c = '；' || c = ';'

/-- ASCII whitespace recognised by Python `str.split()` / `str.strip()`. -/
def isPySpace (c : Char) : Bool :=
  c = ' ' || c = '\t' || c = '\n' || c = '\r' || c = '\x0b' || c = '\x0c'

/-- The punctuation set `.,;:!?()[]"'` of `punctuation_density`. -/
def isPunct (c : Char) : Bool :=
  c = '.' || c = ',' || c = ';' || c = ':' || c = '!' || c = '?' ||
    c = '(' || c = ')' || c = '[' || c = ']' || c = '"' || c = '\''

/-- ASCII model of Python `str.isupper` on one character. -/
def isPyUpper (c : Char) : Bool :=
  65 ≤ c.toNat && c.toNat ≤ 90

/-- ASCII model of Python `str.isdigit` on one character. -/
def isPyDigit (c : Char) : Bool :=
  48 ≤ c.toNat && c.toNat ≤ 57

/-- State machine for `WORD_RE.findall`: accumulates a maximal run of
word characters; a CJK character is emitted as its own single-character
token; any other character ends the current run. -/
def wordFindallAux : List Char → List Char → List (List Char)
  | [], acc => if acc.isEmpty then [] else [acc.reverse]
  | c :: cs, acc =>
    if isWordChar c then wordFindallAux cs (c :: acc)
    else if isCJK c then
      (if acc.isEmpty then [] else [acc.reverse]) ++ [c] :: wordFindallAux cs []
    else
      (if acc.isEmpty then [] else [acc.reverse]) ++ wordFindallAux cs []

/-- Embedding of `WORD_RE.findall(s)`. -/
def wordFindall (s : List Char) : List (List Char) := wordFindallAux s []

/-- State machine for `re.split` on `[.!?？！。；;]+`: a maximal run of
delimiters separates two pieces; the Boolean records whether the previous
character was part of a delimiter run. -/
def sentenceSplitAux : List Char → List Char → Bool → List (List Char)
  | [], acc, _ => [acc.reverse]
  | c :: cs, acc, inDelim =>
    if isSentenceDelim c then
      if inDelim then sentenceSplitAux cs [] true
      else acc.reverse :: sentenceSplitAux cs [] true
    else sentenceSplitAux cs (c :: acc) false

/-- Embedding of `SENTENCE_RE.split(s)`. -/
def sentenceSplit (s : List Char) : List (List Char) := sentenceSplitAux s [] false

/-- Python `str.strip()`: drop whitespace from both ends. -/
def pyStrip (s : List Char) : List Char :=
  ((s.dropWhile isPySpace).reverse.dropWhile isPySpace).reverse

/-- Python `str.split()` with no argument: maximal nonempty runs of
non-whitespace characters. -/
def pySplitAux : List Char → List Char → List (List Char)
  | [], acc => if acc.isEmpty then [] else [acc.reverse]
  | c :: cs, acc =>
    if isPySpace c then
      (if acc.isEmpty then [] else [acc.reverse]) ++ pySplitAux cs []
    else pySplitAux cs (c :: acc)

/-- Embedding of `s.split()`. -/
def pySplit (s : List Char) : List (List Char) := pySplitAux s []

/-- The `STOPWORDS` set of `detector.py`. -/
def STOPWORDS : List (List Char) :=
  ["a".data, "an".data, "the".data, "and".data, "to".data, "of".data, "in".data,
   "is".data, "it".data, "that".data, "as".data, "for".data, "with".data,
   "was".data, "were".data, "on".data, "by".data, "be".data, "are".data,
   "this".data, "at".data, "from".data, "or".data, "which".data, "but".data,
   "have".data, "has".data, "had".data, "not".data, "we".data, "they".data,
   "you".data, "i".data, "their".data, "its".data, "our".data, "will".data,
   "can".data, "about".data, "also".data, "into".data, "more".data, "than".data]

/-- Embedding of `tokens = WORD_RE.findall(text.lower())` in `predict`. -/
def tokensOf (text : List Char) : List (List Char) := wordFindall (pyLower text)

/-- Embedding of `token_lengths = [len(t) for t in tokens if t.strip()]` in `predict`. -/
def tokenLengthsOf (text : List Char) : List ℕ :=
  ((tokensOf text).filter fun t => !(pyStrip t).isEmpty).map List.length

/-- Embedding of `sentences = [s.strip() for s in SENTENCE_RE.split(text) if s.strip()]` in `predict`. -/
def sentencesOf (text : List Char) : List (List Char) :=
  ((sentenceSplit text).map pyStrip).filter fun s => !s.isEmpty

/-- Embedding of `_clamp(value, min_value, max_value)`. -/
noncomputable def clamp (value minValue maxValue : ℝ) : ℝ :=
  max minValue (min value maxValue)

/-- Specialization of `_clamp` at its default bounds 0.0 and 1.0, the only way the code calls it. -/
noncomputable def clamp01 (value : ℝ) : ℝ := clamp value 0 1

/-- Embedding of `_safe_mean(values)`. -/
noncomputable def safeMean (values : List ℝ) : ℝ :=
  if values.isEmpty then 0 else values.sum / values.length

/-- Embedding of `_scale(value, min_value, max_value)`. -/
noncomputable def scale (value minValue maxValue : ℝ) : ℝ :=
  if maxValue = minValue then 0
  else clamp01 ((value - minValue) / (maxValue - minValue))

/-- Embedding of `HeuristicAIHumanDetector._sigmoid`. -/
noncomputable def sigmoid (x : ℝ) : ℝ := 1 / (1 + Real.exp (-x))

/-- The maximum of `freq.values()` in `_get_repetition` / `_get_entropy`:
the count of the most frequent token (0 on an empty token list). -/
def maxFreq (tokens : List (List Char)) : ℕ :=
  (tokens.dedup.map fun t => tokens.count t).foldr max 0

/-- Embedding of `_get_repetition(tokens)`. -/
noncomputable def getRepetition (tokens : List (List Char)) : ℝ :=
  if tokens.isEmpty then 0 else (maxFreq tokens : ℝ) / tokens.length

/-- Embedding of `_get_burstiness(sentences)`; `statistics.mean` is the
arithmetic mean and `statistics.pstdev` the square root of the population
variance. -/
noncomputable def getBurstiness (sentences : List (List Char)) : ℝ :=
  let lengths := (sentences.filter fun s => !(pySplit s).isEmpty).map fun s => (pySplit s).length
  if lengths.isEmpty then 0
  else if lengths.length = 1 then 0.2
  else
    let meanLen : ℝ := (lengths.map fun n => (n : ℝ)).sum / lengths.length
    let stdLen : ℝ := Real.sqrt ((lengths.map fun n => ((n : ℝ) - meanLen) ^ 2).sum / lengths.length)
    if meanLen = 0 then 0 else clamp01 (stdLen / meanLen)

/-- Embedding of `_get_entropy(tokens)`; `math.log(p, 2)` is `Real.logb 2 p`. -/
noncomputable def getEntropy (tokens : List (List Char)) : ℝ :=
  if tokens.isEmpty then 0
  else
    let total : ℝ := tokens.length
    let distinct := tokens.dedup
    let entropy : ℝ :=
      (distinct.map fun t =>
        -(((tokens.count t : ℝ) / total) * Real.logb 2 ((tokens.count t : ℝ) / total))).sum
    let maxEntropy : ℝ := if 1 < distinct.length then Real.logb 2 (distinct.length : ℝ) else 1
    clamp01 (if 0 < maxEntropy then entropy / maxEntropy else entropy)

/-- Embedding of `HeuristicAIHumanDetector._extract_features`, returning
the feature dictionary as an association list in the dictionary's
insertion order. -/
noncomputable def extractFeatures (text : List Char) (tokens : List (List Char))
    (token_lengths : List ℕ) (sentences : List (List Char)) : List (String × ℝ) :=
  let total_chars : ℝ := if text.isEmpty then 1 else text.length
  let total_tokens : ℝ := if tokens.isEmpty then 1 else tokens.length
  let avg_sentence_len : ℝ :=
    if sentences.isEmpty then tokens.length
    else safeMean (sentences.map fun s => ((pySplit s).length : ℝ))
  let avg_word_len : ℝ :=
    if token_lengths.isEmpty then 0 else safeMean (token_lengths.map fun n => (n : ℝ))
  let stopword_ratio : ℝ := (tokens.countP fun t => STOPWORDS.contains t) / total_tokens
  let punctuation_density := clamp01 ((text.countP isPunct : ℝ) / total_chars)
  let uppercase_ratio := clamp01 ((text.countP isPyUpper : ℝ) / total_chars)
  let digit_ratio := clamp01 ((text.countP isPyDigit : ℝ) / total_chars)
  let diversity : ℝ := (tokens.dedup.length : ℝ) / total_tokens
  let repetition := getRepetition tokens
  let burstiness := getBurstiness sentences
  let entropy := getEntropy tokens
  let complexity := scale avg_sentence_len 10 40 * 0.7 + scale avg_word_len 4 8 * 0.3
  [("complexity", complexity), ("burstiness", burstiness), ("repetition", repetition),
   ("diversity", diversity), ("stopword_ratio", stopword_ratio),
   ("punctuation_density", punctuation_density), ("uppercase_ratio", uppercase_ratio),
   ("digit_ratio", digit_ratio), ("entropy", entropy)]

/-- The weight table fixed in `HeuristicAIHumanDetector.__init__`. -/
noncomputable def weights : List (String × ℝ) :=
  [("complexity", 1.2), ("burstiness", -1.4), ("repetition", 1.1), ("diversity", -1.3),
   ("stopword_ratio", 0.8), ("punctuation_density", -0.4), ("entropy", -0.7)]

/-- The bias fixed in `HeuristicAIHumanDetector.__init__`. -/
noncomputable def bias : ℝ := 0.15

/-- The score accumulation loop of `predict`: starting from the bias,
each feature whose name is in the weight table contributes
`weight * value`. -/
noncomputable def scoreOf (features : List (String × ℝ)) : ℝ :=
  features.foldl
    (fun acc p =>
      match List.lookup p.1 weights with
      | some w => acc + w * p.2
      | none => acc)
    bias

/-- The `DetectionResult` dataclass. -/
structure DetectionResult where
  label : String
  ai_score : ℝ
  human_score : ℝ
  features : List (String × ℝ)

/-- The feature dictionary `predict` builds for a text. -/
noncomputable def featuresOf (text : List Char) : List (String × ℝ) :=
  extractFeatures text (tokensOf text) (tokenLengthsOf text) (sentencesOf text)

/-- Embedding of `HeuristicAIHumanDetector.predict`. -/
noncomputable def predict (text : List Char) : DetectionResult :=
  let features := featuresOf text
  let score := scoreOf features
  let ai_score := sigmoid score
  let human_score := 1 - ai_score
  let label := if (0.5 : ℝ) ≤ ai_score then "AI-written" else "Human-written"
  ⟨label, ai_score, human_score, features⟩

/-- Embedding of `HeuristicAIHumanDetector.batch_predict`. -/
noncomputable def batchPredict (texts : List (List Char)) : List DetectionResult :=
  texts.map predict

/-- Look a feature value up in a result's feature dictionary (0 if absent). -/
noncomputable def featVal (r : DetectionResult) (name : String) : ℝ :=
  (List.lookup name r.features).getD 0

/-- Burstiness in the specification's words: take the per-sentence word
counts of sentences with at least one word; 0 if there are none, the
constant 0.2 if there is exactly one, and otherwise the population
standard deviation of the counts divided by their mean, clamped to
`[0, 1]`, with 0 returned when the mean is 0. -/
noncomputable def specBurstiness (wordCounts : List ℕ) : ℝ :=
  if wordCounts = [] then 0
  else if wordCounts.length = 1 then 0.2
  else
    let mu : ℝ := (wordCounts.map fun n => (n : ℝ)).sum / wordCounts.length
    if mu = 0 then 0
    else clamp01 (Real.sqrt ((wordCounts.map fun n => ((n : ℝ) - mu) ^ 2).sum / wordCounts.length) / mu)

/-- The concrete input of the specification scenario. -/
def exTextC7 : List Char := "The cat sat. The cat sat. The cat sat.".data

/-- Membership of a code point in the ASCII letter ranges `A`-`Z` / `a`-`z`. -/
def isLetter (c : Char) : Prop :=
  (65 ≤ c.toNat ∧ c.toNat ≤ 90) ∨ (97 ≤ c.toNat ∧ c.toNat ≤ 122)

/-- Two characters differ at most in ASCII letter case: the ASCII
lowercasing map identifies them. -/
def caseEquiv (a b : Char) : Prop := lowerChar a = lowerChar b

/-! Basic bounds on the numeric helpers. -/

theorem clamp01_nonneg (v : ℝ) : 0 ≤ clamp01 v :=
  le_max_left 0 _

theorem clamp01_le_one (v : ℝ) : clamp01 v ≤ 1 :=
  max_le (by norm_num) (min_le_right v 1)

theorem clamp01_mem (v : ℝ) : clamp01 v ∈ Set.Icc (0 : ℝ) 1 :=
  ⟨clamp01_nonneg v, clamp01_le_one v⟩

theorem scale_mem (v lo hi : ℝ) : scale v lo hi ∈ Set.Icc (0 : ℝ) 1 := by
  unfold scale
  split
  · exact ⟨le_refl 0, by norm_num⟩
  · exact clamp01_mem _

theorem complexity_mem (v w : ℝ) :
    scale v 10 40 * 0.7 + scale w 4 8 * 0.3 ∈ Set.Icc (0 : ℝ) 1 := by
  obtain ⟨h1, h2⟩ := scale_mem v 10 40
  obtain ⟨h3, h4⟩ := scale_mem w 4 8
  constructor <;> nlinarith

theorem sigmoid_pos (x : ℝ) : 0 < sigmoid x := by
  unfold sigmoid
  positivity

theorem sigmoid_lt_one (x : ℝ) : sigmoid x < 1 := by
  unfold sigmoid
  rw [div_lt_one (by positivity)]
  have := Real.exp_pos (-x)
  linarith

theorem sigmoid_mono {x y : ℝ} (h : x ≤ y) : sigmoid x ≤ sigmoid y := by
  unfold sigmoid
  have h1 : (0 : ℝ) < 1 + Real.exp (-y) := by positivity
  have h2 : Real.exp (-y) ≤ Real.exp (-x) := Real.exp_le_exp.mpr (by linarith)
  exact div_le_div_of_nonneg_left (by norm_num) h1 (by linarith)

theorem sigmoid_zero : sigmoid 0 = 1 / 2 := by
  unfold sigmoid
  norm_num [Real.exp_zero]

/-! Bounds on the individual features. -/

/-- A count divided by the floored-at-one total is in the unit interval. -/
theorem count_div_total_mem {α : Type} (c : ℕ) (l : List α) (h : c ≤ l.length) :
    (c : ℝ) / (if l.isEmpty then (1 : ℝ) else l.length) ∈ Set.Icc (0 : ℝ) 1 := by
  cases l with
  | nil =>
    have hc : c = 0 := Nat.le_zero.mp h
    subst hc
    simp
  | cons a as =>
    simp only [List.isEmpty_cons, Bool.false_eq_true, if_false]
    constructor
    · positivity
    · rw [div_le_one (by exact_mod_cast Nat.succ_pos as.length)]
      exact_mod_cast h

theorem maxFreq_le_length (tokens : List (List Char)) : maxFreq tokens ≤ tokens.length := by
  unfold maxFreq
  have : ∀ ds : List (List Char), (∀ t ∈ ds, tokens.count t ≤ tokens.length) →
      (ds.map fun t => tokens.count t).foldr max 0 ≤ tokens.length := by
    intro ds
    induction ds with
    | nil => intro _; simp
    | cons d ds ih =>
      intro hmem
      simp only [List.map_cons, List.foldr_cons]
      exact max_le (hmem d (List.mem_cons_self d ds))
        (ih fun t ht => hmem t (List.mem_cons_of_mem d ht))
  exact this _ fun t _ => List.count_le_length t tokens

theorem getRepetition_mem (tokens : List (List Char)) :
    getRepetition tokens ∈ Set.Icc (0 : ℝ) 1 := by
  unfold getRepetition
  cases tokens with
  | nil => simp
  | cons t ts =>
    simp only [List.isEmpty_cons, Bool.false_eq_true, if_false]
    constructor
    · positivity
    · rw [div_le_one (by exact_mod_cast Nat.succ_pos ts.length)]
      exact_mod_cast maxFreq_le_length (t :: ts)

theorem getBurstiness_mem (sentences : List (List Char)) :
    getBurstiness sentences ∈ Set.Icc (0 : ℝ) 1 := by
  simp only [getBurstiness]
  split
  · exact ⟨le_refl 0, by norm_num⟩
  · split
    · constructor <;> norm_num
    · split
      · exact ⟨le_refl 0, by norm_num⟩
      · exact clamp01_mem _

theorem getEntropy_mem (tokens : List (List Char)) :
    getEntropy tokens ∈ Set.Icc (0 : ℝ) 1 := by
  simp only [getEntropy]
  split
  · exact ⟨le_refl 0, by norm_num⟩
  · exact clamp01_mem _

/-! Evaluation of the score accumulation on an explicit feature list. -/

theorem scoreOf_explicit (vc vb vr vd vs vp vu vg ve : ℝ) :
    scoreOf [("complexity", vc), ("burstiness", vb), ("repetition", vr),
      ("diversity", vd), ("stopword_ratio", vs), ("punctuation_density", vp),
      ("uppercase_ratio", vu), ("digit_ratio", vg), ("entropy", ve)] =
    bias + 1.2 * vc + (-1.4) * vb + 1.1 * vr + (-1.3) * vd + 0.8 * vs +
      (-0.4) * vp + (-0.7) * ve := by
  simp [scoreOf, weights, List.lookup]

/-- The feature dictionary always consists of exactly the nine feature
names, in insertion order, each with a value in the unit interval. -/
theorem featuresOf_shape (text : List Char) :
    ∃ vc vb vr vd vs vp vu vg ve : ℝ,
      featuresOf text =
        [("complexity", vc), ("burstiness", vb), ("repetition", vr), ("diversity", vd),
         ("stopword_ratio", vs), ("punctuation_density", vp), ("uppercase_ratio", vu),
         ("digit_ratio", vg), ("entropy", ve)] ∧
      vc ∈ Set.Icc (0 : ℝ) 1 ∧ vb ∈ Set.Icc (0 : ℝ) 1 ∧ vr ∈ Set.Icc (0 : ℝ) 1 ∧
      vd ∈ Set.Icc (0 : ℝ) 1 ∧ vs ∈ Set.Icc (0 : ℝ) 1 ∧ vp ∈ Set.Icc (0 : ℝ) 1 ∧
      vu ∈ Set.Icc (0 : ℝ) 1 ∧ vg ∈ Set.Icc (0 : ℝ) 1 ∧ ve ∈ Set.Icc (0 : ℝ) 1 := by
  simp only [featuresOf, extractFeatures]
  refine ⟨_, _, _, _, _, _, _, _, _, rfl, ?_, ?_, ?_, ?_, ?_, ?_, ?_, ?_, ?_⟩
  · exact complexity_mem _ _
  · exact getBurstiness_mem _
  · exact getRepetition_mem _
  · exact count_div_total_mem _ _ (List.Sublist.length_le (List.dedup_sublist _))
  · exact count_div_total_mem _ _ (List.countP_le_length _)
  · exact clamp01_mem _
  · exact clamp01_mem _
  · exact clamp01_mem _
  · exact getEntropy_mem _

/-- C1: for every input text, the result of `predict` contains all nine
feature names (complexity, burstiness, repetition, diversity,
stopword_ratio, punctuation_density, uppercase_ratio, digit_ratio,
entropy), every feature value lies in `[0, 1]`, and the human probability
is exactly one minus the AI probability. -/
theorem claim1 (text : List Char) :
    (∃ vc vb vr vd vs vp vu vg ve : ℝ,
      (predict text).features =
        [("complexity", vc), ("burstiness", vb), ("repetition", vr), ("diversity", vd),
         ("stopword_ratio", vs), ("punctuation_density", vp), ("uppercase_ratio", vu),
         ("digit_ratio", vg), ("entropy", ve)] ∧
      vc ∈ Set.Icc (0 : ℝ) 1 ∧ vb ∈ Set.Icc (0 : ℝ) 1 ∧ vr ∈ Set.Icc (0 : ℝ) 1 ∧
      vd ∈ Set.Icc (0 : ℝ) 1 ∧ vs ∈ Set.Icc (0 : ℝ) 1 ∧ vp ∈ Set.Icc (0 : ℝ) 1 ∧
      vu ∈ Set.Icc (0 : ℝ) 1 ∧ vg ∈ Set.Icc (0 : ℝ) 1 ∧ ve ∈ Set.Icc (0 : ℝ) 1) ∧
    (predict text).human_score = 1 - (predict text).ai_score := by
  exact ⟨featuresOf_shape text, rfl⟩

/-- C2: for every input text, `predict` scores the text as the bias 0.15
plus the weighted sum of exactly the seven configured features — so
`uppercase_ratio` and `digit_ratio` do not affect the score — squashes
the score through `sigmoid` (which is `1 / (1 + exp (-score))` by
definition), and labels the text AI-written exactly when the AI
probability is at least one half. -/
theorem claim2 (text : List Char) :
    (predict text).ai_score =
      sigmoid (0.15 + 1.2 * featVal (predict text) "complexity" +
        (-1.4) * featVal (predict text) "burstiness" +
        1.1 * featVal (predict text) "repetition" +
        (-1.3) * featVal (predict text) "diversity" +
        0.8 * featVal (predict text) "stopword_ratio" +
        (-0.4) * featVal (predict text) "punctuation_density" +
        (-0.7) * featVal (predict text) "entropy") ∧
    (predict text).label =
      (if (0.5 : ℝ) ≤ (predict text).ai_score then "AI-written" else "Human-written") := by
  obtain ⟨vc, vb, vr, vd, vs, vp, vu, vg, ve, hf, _⟩ := featuresOf_shape text
  have hfeat : (predict text).features = featuresOf text := rfl
  have hai : (predict text).ai_score = sigmoid (scoreOf (featuresOf text)) := rfl
  constructor
  · rw [hai, featVal, featVal, featVal, featVal, featVal, featVal, featVal, hfeat, hf,
      scoreOf_explicit]
    simp [List.lookup, bias]
  · rfl

/-- C6: `batch_predict` returns exactly one result per input text, equal
element-wise and in input order to mapping `predict` over the texts. -/
theorem claim6 (texts : List (List Char)) :
    (batchPredict texts).length = texts.length ∧
    ∀ i : ℕ, (batchPredict texts)[i]? = (texts[i]?).map predict := by
  refine ⟨by simp [batchPredict], fun i => ?_⟩
  simp [batchPredict]

/-- C8: the aggregated score is bounded in magnitude by the bias plus the
sum of the absolute configured weights, so the logistic squash yields a
well-defined AI probability strictly between 0 and 1 for every text. -/
theorem claim8 (text : List Char) :
    |scoreOf (featuresOf text)| ≤ bias + (1.2 + 1.4 + 1.1 + 1.3 + 0.8 + 0.4 + 0.7) ∧
    0 < (predict text).ai_score ∧ (predict text).ai_score < 1 := by
  obtain ⟨vc, vb, vr, vd, vs, vp, vu, vg, ve, hf, h1, h2, h3, h4, h5, h6, h7, h8, h9⟩ :=
    featuresOf_shape text
  refine ⟨?_, sigmoid_pos _, sigmoid_lt_one _⟩
  rw [hf, scoreOf_explicit]
  obtain ⟨l1, u1⟩ := h1
  obtain ⟨l2, u2⟩ := h2
  obtain ⟨l3, u3⟩ := h3
  obtain ⟨l4, u4⟩ := h4
  obtain ⟨l5, u5⟩ := h5
  obtain ⟨l6, u6⟩ := h6
  obtain ⟨l9, u9⟩ := h9
  rw [abs_le, bias]
  constructor <;> [skip; skip] <;> norm_num <;> linarith


theorem featuresOf_nil :
    featuresOf [] =
      [("complexity", 0), ("burstiness", 0), ("repetition", 0), ("diversity", 0),
       ("stopword_ratio", 0), ("punctuation_density", 0), ("uppercase_ratio", 0),
       ("digit_ratio", 0), ("entropy", 0)] := by
  have ht : tokensOf [] = [] := rfl
  have hs : sentencesOf [] = [] := rfl
  have htl : tokenLengthsOf [] = [] := rfl
  unfold featuresOf
  rw [ht, hs, htl]
  simp only [extractFeatures]
  norm_num [scale, clamp01, clamp, safeMean, getRepetition, getBurstiness, getEntropy,
    min_def, max_def]

theorem claim3 :
    (predict []).features =
      [("complexity", 0), ("burstiness", 0), ("repetition", 0), ("diversity", 0),
       ("stopword_ratio", 0), ("punctuation_density", 0), ("uppercase_ratio", 0),
       ("digit_ratio", 0), ("entropy", 0)] ∧
    (predict []).ai_score = sigmoid bias := by
  constructor
  · exact featuresOf_nil
  · have hai : (predict []).ai_score = sigmoid (scoreOf (featuresOf [])) := rfl
    rw [hai, featuresOf_nil, scoreOf_explicit]
    norm_num

theorem claim10 :
    (predict []).label = "AI-written" ∧ (predict []).ai_score = sigmoid 0.15 ∧
    (1 / 2 : ℝ) ≤ sigmoid 0.15 := by
  have hhalf : (1 / 2 : ℝ) ≤ sigmoid 0.15 := by
    rw [← sigmoid_zero]
    exact sigmoid_mono (by norm_num)
  have hai : (predict []).ai_score = sigmoid 0.15 := by
    have : (predict []).ai_score = sigmoid (scoreOf (featuresOf [])) := rfl
    rw [this, featuresOf_nil, scoreOf_explicit]
    norm_num [bias]
  refine ⟨?_, hai, hhalf⟩
  have hlab : (predict []).label =
      (if (0.5 : ℝ) ≤ (predict []).ai_score then "AI-written" else "Human-written") := rfl
  rw [hlab, hai, if_pos (by linarith)]

theorem claim5 (vc vb vr vd vs vp vu vg ve r2 b2 : ℝ) :
    (vr ≤ r2 →
      sigmoid (scoreOf [("complexity", vc), ("burstiness", vb), ("repetition", vr),
        ("diversity", vd), ("stopword_ratio", vs), ("punctuation_density", vp),
        ("uppercase_ratio", vu), ("digit_ratio", vg), ("entropy", ve)]) ≤
      sigmoid (scoreOf [("complexity", vc), ("burstiness", vb), ("repetition", r2),
        ("diversity", vd), ("stopword_ratio", vs), ("punctuation_density", vp),
        ("uppercase_ratio", vu), ("digit_ratio", vg), ("entropy", ve)])) ∧
    (vb ≤ b2 →
      sigmoid (scoreOf [("complexity", vc), ("burstiness", b2), ("repetition", vr),
        ("diversity", vd), ("stopword_ratio", vs), ("punctuation_density", vp),
        ("uppercase_ratio", vu), ("digit_ratio", vg), ("entropy", ve)]) ≤
      sigmoid (scoreOf [("complexity", vc), ("burstiness", vb), ("repetition", vr),
        ("diversity", vd), ("stopword_ratio", vs), ("punctuation_density", vp),
        ("uppercase_ratio", vu), ("digit_ratio", vg), ("entropy", ve)])) := by
  rw [scoreOf_explicit, scoreOf_explicit, scoreOf_explicit]
  constructor
  · intro h
    exact sigmoid_mono (by nlinarith)
  · intro h
    exact sigmoid_mono (by nlinarith)

theorem claim5_witness :
    (sigmoid (scoreOf [("complexity", 0), ("burstiness", 0), ("repetition", 0),
        ("diversity", 0), ("stopword_ratio", 0), ("punctuation_density", 0),
        ("uppercase_ratio", 0), ("digit_ratio", 0), ("entropy", 0)]) ≤
      sigmoid (scoreOf [("complexity", 0), ("burstiness", 0), ("repetition", 1),
        ("diversity", 0), ("stopword_ratio", 0), ("punctuation_density", 0),
        ("uppercase_ratio", 0), ("digit_ratio", 0), ("entropy", 0)])) ∧
    (sigmoid (scoreOf [("complexity", 0), ("burstiness", 1), ("repetition", 0),
        ("diversity", 0), ("stopword_ratio", 0), ("punctuation_density", 0),
        ("uppercase_ratio", 0), ("digit_ratio", 0), ("entropy", 0)]) ≤
      sigmoid (scoreOf [("complexity", 0), ("burstiness", 0), ("repetition", 0),
        ("diversity", 0), ("stopword_ratio", 0), ("punctuation_density", 0),
        ("uppercase_ratio", 0), ("digit_ratio", 0), ("entropy", 0)])) :=
  ⟨(claim5 0 0 0 0 0 0 0 0 0 1 1).1 (by norm_num),
   (claim5 0 0 0 0 0 0 0 0 0 1 1).2 (by norm_num)⟩

theorem getBurstiness_eq_spec (sentences : List (List Char)) :
    getBurstiness sentences =
      specBurstiness ((sentences.map fun s => (pySplit s).length).filter fun n => n ≠ 0) := by
  have hl : (sentences.filter fun s => !(pySplit s).isEmpty).map (fun s => (pySplit s).length) =
      (sentences.map fun s => (pySplit s).length).filter fun n => n ≠ 0 := by
    induction sentences with
    | nil => rfl
    | cons s ss ih =>
      simp only [List.filter_cons, List.map_cons]
      by_cases h : (pySplit s).isEmpty
      · have h0 : (pySplit s).length = 0 := by
          rwa [List.isEmpty_iff, ← List.length_eq_zero] at h
        simp [h, h0, ih]
      · have h0 : (pySplit s).length ≠ 0 := by
          rw [List.isEmpty_iff, ← List.length_eq_zero] at h
          exact h
        simp [h, h0, ih]
  simp only [getBurstiness, specBurstiness, hl]
  cases hc : (sentences.map fun s => (pySplit s).length).filter fun n => n ≠ 0 with
  | nil => simp
  | cons a L => simp

theorem claim4 (text : List Char) :
    List.lookup "burstiness" (predict text).features =
      some (specBurstiness
        (((sentencesOf text).map fun s => (pySplit s).length).filter fun n => n ≠ 0)) := by
  have hf : (predict text).features = featuresOf text := rfl
  rw [hf]
  unfold featuresOf
  simp only [extractFeatures]
  rw [← getBurstiness_eq_spec]
  simp [List.lookup]

theorem claim7 :
    tokensOf exTextC7 =
      ["the".data, "cat".data, "sat".data, "the".data, "cat".data, "sat".data,
       "the".data, "cat".data, "sat".data] ∧
    List.lookup "repetition" (predict exTextC7).features = some (3 / 9) ∧
    List.lookup "burstiness" (predict exTextC7).features = some 0 ∧
    List.lookup "diversity" (predict exTextC7).features = some (3 / 9) := by
  have htok : tokensOf exTextC7 =
      ["the".data, "cat".data, "sat".data, "the".data, "cat".data, "sat".data,
       "the".data, "cat".data, "sat".data] := by decide
  have hf : (predict exTextC7).features = featuresOf exTextC7 := rfl
  refine ⟨htok, ?_, ?_, ?_⟩
  · have h1 : maxFreq (tokensOf exTextC7) = 3 := by decide
    have h2 : (tokensOf exTextC7).length = 9 := by decide
    have h3 : (tokensOf exTextC7).isEmpty = false := by decide
    rw [hf]
    unfold featuresOf
    simp only [extractFeatures]
    simp [List.lookup, getRepetition, h1, h2, h3]
  · have hlen : ((sentencesOf exTextC7).filter fun s => !(pySplit s).isEmpty).map
        (fun s => (pySplit s).length) = [3, 3, 3] := by decide
    rw [hf]
    unfold featuresOf
    simp only [extractFeatures]
    simp only [getBurstiness, hlen]
    simp [List.lookup, clamp01, clamp]
    norm_num [Real.sqrt_eq_zero]
  · have h1 : (tokensOf exTextC7).dedup.length = 3 := by decide
    have h2 : (tokensOf exTextC7).length = 9 := by decide
    have h3 : (tokensOf exTextC7).isEmpty = false := by decide
    rw [hf]
    unfold featuresOf
    simp only [extractFeatures]
    simp [List.lookup, h1, h2, h3]

theorem toNat_ofNat_lt {n : ℕ} (h : n < 55296) : (Char.ofNat n).toNat = n := by
  unfold Char.ofNat
  rw [dif_pos (Or.inl h)]
  rfl

/-- Either a character is fixed by `lowerChar`, or it is an uppercase
ASCII letter whose code point is moved up by 32. -/
theorem lowerChar_spec (c : Char) :
    (lowerChar c = c ∧ ¬(65 ≤ c.toNat ∧ c.toNat ≤ 90)) ∨
    (65 ≤ c.toNat ∧ c.toNat ≤ 90 ∧ (lowerChar c).toNat = c.toNat + 32) := by
  unfold lowerChar
  by_cases h : 65 ≤ c.toNat ∧ c.toNat ≤ 90
  · right
    refine ⟨h.1, h.2, ?_⟩
    rw [if_pos (by simp [h.1, h.2]), toNat_ofNat_lt (by omega)]
  · left
    refine ⟨?_, h⟩
    rw [if_neg (by simpa using h)]

theorem char_eq_of_toNat_eq {a b : Char} (h : a.toNat = b.toNat) : a = b := by
  apply Char.eq_of_val_eq
  exact UInt32.ext h

/-- Characters identified by lowercasing are equal or both ASCII letters. -/
theorem caseEquiv_cases {a b : Char} (h : caseEquiv a b) :
    a = b ∨ (isLetter a ∧ isLetter b) := by
  unfold caseEquiv at h
  rcases lowerChar_spec a with ⟨ha1, ha2⟩ | ⟨ha1, ha2, ha3⟩ <;>
    rcases lowerChar_spec b with ⟨hb1, hb2⟩ | ⟨hb1, hb2, hb3⟩
  · left
    rw [← ha1, ← hb1, h]
  · right
    have : a.toNat = b.toNat + 32 := by
      rw [← hb3, ← h, ha1]
    constructor
    · right
      omega
    · left
      exact ⟨hb1, hb2⟩
  · right
    have : b.toNat = a.toNat + 32 := by
      rw [← ha3, h, hb1]
    constructor
    · left
      exact ⟨ha1, ha2⟩
    · right
      omega
  · right
    exact ⟨Or.inl ⟨ha1, ha2⟩, Or.inl ⟨hb1, hb2⟩⟩

theorem isSentenceDelim_false_of_letter {c : Char} (h : isLetter c) :
    isSentenceDelim c = false := by
  have hne : ∀ d : Char, d.toNat < 65 ∨ (90 < d.toNat ∧ d.toNat < 97) ∨ 122 < d.toNat →
      c ≠ d := by
    rintro d hd rfl
    rcases h with ⟨h1, h2⟩ | ⟨h1, h2⟩ <;> omega
  simp only [isSentenceDelim]
  rw [decide_eq_false (hne '.' (by decide)), decide_eq_false (hne '!' (by decide)),
    decide_eq_false (hne '?' (by decide)), decide_eq_false (hne '？' (by decide)),
    decide_eq_false (hne '！' (by decide)), decide_eq_false (hne '。' (by decide)),
    decide_eq_false (hne '；' (by decide)), decide_eq_false (hne ';' (by decide))]
  rfl

theorem isPySpace_false_of_letter {c : Char} (h : isLetter c) :
    isPySpace c = false := by
  have hne : ∀ d : Char, d.toNat < 65 → c ≠ d := by
    rintro d hd rfl
    rcases h with ⟨h1, h2⟩ | ⟨h1, h2⟩ <;> omega
  simp only [isPySpace]
  rw [decide_eq_false (hne ' ' (by decide)), decide_eq_false (hne '\t' (by decide)),
    decide_eq_false (hne '\n' (by decide)), decide_eq_false (hne '\r' (by decide)),
    decide_eq_false (hne '\x0b' (by decide)), decide_eq_false (hne '\x0c' (by decide))]
  rfl

theorem isPunct_false_of_letter {c : Char} (h : isLetter c) :
    isPunct c = false := by
  have hne : ∀ d : Char, d.toNat < 65 ∨ (90 < d.toNat ∧ d.toNat < 97) ∨ 122 < d.toNat →
      c ≠ d := by
    rintro d hd rfl
    rcases h with ⟨h1, h2⟩ | ⟨h1, h2⟩ <;> omega
  simp only [isPunct]
  rw [decide_eq_false (hne '.' (by decide)), decide_eq_false (hne ',' (by decide)),
    decide_eq_false (hne ';' (by decide)), decide_eq_false (hne ':' (by decide)),
    decide_eq_false (hne '!' (by decide)), decide_eq_false (hne '?' (by decide)),
    decide_eq_false (hne '(' (by decide)), decide_eq_false (hne ')' (by decide)),
    decide_eq_false (hne '[' (by decide)), decide_eq_false (hne ']' (by decide)),
    decide_eq_false (hne '"' (by decide)), decide_eq_false (hne '\'' (by decide))]
  rfl

theorem isPyDigit_false_of_letter {c : Char} (h : isLetter c) :
    isPyDigit c = false := by
  unfold isPyDigit
  rcases h with ⟨h1, h2⟩ | ⟨h1, h2⟩ <;> simp <;> omega

theorem isSentenceDelim_congr {a b : Char} (h : caseEquiv a b) :
    isSentenceDelim a = isSentenceDelim b := by
  rcases caseEquiv_cases h with rfl | ⟨ha, hb⟩
  · rfl
  · rw [isSentenceDelim_false_of_letter ha, isSentenceDelim_false_of_letter hb]

theorem isPySpace_congr {a b : Char} (h : caseEquiv a b) :
    isPySpace a = isPySpace b := by
  rcases caseEquiv_cases h with rfl | ⟨ha, hb⟩
  · rfl
  · rw [isPySpace_false_of_letter ha, isPySpace_false_of_letter hb]

theorem isPunct_congr {a b : Char} (h : caseEquiv a b) :
    isPunct a = isPunct b := by
  rcases caseEquiv_cases h with rfl | ⟨ha, hb⟩
  · rfl
  · rw [isPunct_false_of_letter ha, isPunct_false_of_letter hb]

theorem isPyDigit_congr {a b : Char} (h : caseEquiv a b) :
    isPyDigit a = isPyDigit b := by
  rcases caseEquiv_cases h with rfl | ⟨ha, hb⟩
  · rfl
  · rw [isPyDigit_false_of_letter ha, isPyDigit_false_of_letter hb]

theorem isEmpty_eq_of_forall2 {α β : Type} {r : α → β → Prop} {u : List α} {v : List β}
    (h : List.Forall₂ r u v) : u.isEmpty = v.isEmpty := by
  cases h <;> rfl

theorem pyLower_eq_of_forall2 {u v : List Char} (h : List.Forall₂ caseEquiv u v) :
    pyLower u = pyLower v := by
  induction h with
  | nil => rfl
  | cons h1 h2 ih =>
    simp only [pyLower, List.map_cons] at ih ⊢
    rw [ih, h1]

theorem countP_eq_of_forall2 {p : Char → Bool} (hp : ∀ a b, caseEquiv a b → p a = p b)
    {u v : List Char} (h : List.Forall₂ caseEquiv u v) : u.countP p = v.countP p := by
  induction h with
  | nil => rfl
  | cons h1 h2 ih => simp [List.countP_cons, hp _ _ h1, ih]

theorem dropWhile_forall2 {p : Char → Bool} (hp : ∀ a b, caseEquiv a b → p a = p b)
    {u v : List Char} (h : List.Forall₂ caseEquiv u v) :
    List.Forall₂ caseEquiv (u.dropWhile p) (v.dropWhile p) := by
  induction h with
  | nil => exact .nil
  | cons h1 h2 ih =>
    rw [List.dropWhile_cons, List.dropWhile_cons, hp _ _ h1]
    cases hb : p _
    · exact .cons h1 h2
    · exact ih

theorem pyStrip_forall2 {u v : List Char} (h : List.Forall₂ caseEquiv u v) :
    List.Forall₂ caseEquiv (pyStrip u) (pyStrip v) :=
  List.rel_reverse
    (dropWhile_forall2 (fun _ _ hab => isPySpace_congr hab)
      (List.rel_reverse
        (dropWhile_forall2 (fun _ _ hab => isPySpace_congr hab) h)))

theorem sentenceSplitAux_forall2 {u v : List Char} (h : List.Forall₂ caseEquiv u v) :
    ∀ (acc₁ acc₂ : List Char) (flag : Bool), List.Forall₂ caseEquiv acc₁ acc₂ →
      List.Forall₂ (List.Forall₂ caseEquiv)
        (sentenceSplitAux u acc₁ flag) (sentenceSplitAux v acc₂ flag) := by
  induction h with
  | nil =>
    intro acc₁ acc₂ flag hacc
    exact .cons (List.rel_reverse hacc) .nil
  | @cons a b as bs h1 h2 ih =>
    intro acc₁ acc₂ flag hacc
    simp only [sentenceSplitAux]
    rw [isSentenceDelim_congr h1]
    cases hd : isSentenceDelim b
    · simp only [Bool.false_eq_true, if_false]
      exact ih _ _ false (.cons h1 hacc)
    · simp only [if_true]
      cases flag
      · simp only [Bool.false_eq_true, if_false]
        exact .cons (List.rel_reverse hacc) (ih _ _ true .nil)
      · simp only [if_true]
        exact ih _ _ true .nil

theorem pySplitAux_forall2 {u v : List Char} (h : List.Forall₂ caseEquiv u v) :
    ∀ (acc₁ acc₂ : List Char), List.Forall₂ caseEquiv acc₁ acc₂ →
      List.Forall₂ (List.Forall₂ caseEquiv) (pySplitAux u acc₁) (pySplitAux v acc₂) := by
  induction h with
  | nil =>
    intro acc₁ acc₂ hacc
    simp only [pySplitAux]
    rw [isEmpty_eq_of_forall2 hacc]
    cases he : acc₂.isEmpty
    · exact .cons (List.rel_reverse hacc) .nil
    · exact .nil
  | @cons a b as bs h1 h2 ih =>
    intro acc₁ acc₂ hacc
    simp only [pySplitAux]
    rw [isPySpace_congr h1, isEmpty_eq_of_forall2 hacc]
    cases hs : isPySpace b
    · simp only [Bool.false_eq_true, if_false]
      exact ih _ _ (.cons h1 hacc)
    · simp only [if_true]
      cases he : acc₂.isEmpty
      · simp only [Bool.false_eq_true, if_false]
        exact .cons (List.rel_reverse hacc) (ih _ _ .nil)
      · simp only [if_true]
        exact ih _ _ .nil

theorem pySplit_forall2 {u v : List Char} (h : List.Forall₂ caseEquiv u v) :
    List.Forall₂ (List.Forall₂ caseEquiv) (pySplit u) (pySplit v) :=
  pySplitAux_forall2 h [] [] .nil

theorem pySplit_length_eq {u v : List Char} (h : List.Forall₂ caseEquiv u v) :
    (pySplit u).length = (pySplit v).length :=
  (pySplit_forall2 h).length_eq

theorem map_pyStrip_forall2 {ss ts : List (List Char)}
    (h : List.Forall₂ (List.Forall₂ caseEquiv) ss ts) :
    List.Forall₂ (List.Forall₂ caseEquiv) (ss.map pyStrip) (ts.map pyStrip) := by
  induction h with
  | nil => exact .nil
  | cons h1 h2 ih => exact .cons (pyStrip_forall2 h1) ih

theorem filter_nonempty_forall2 {ss ts : List (List Char)}
    (h : List.Forall₂ (List.Forall₂ caseEquiv) ss ts) :
    List.Forall₂ (List.Forall₂ caseEquiv)
      (ss.filter fun s => !s.isEmpty) (ts.filter fun s => !s.isEmpty) := by
  induction h with
  | nil => exact .nil
  | @cons s t ss ts h1 h2 ih =>
    simp only [List.filter_cons]
    rw [isEmpty_eq_of_forall2 h1]
    cases ht : t.isEmpty
    · exact .cons h1 ih
    · exact ih

theorem sentencesOf_forall2 {u v : List Char} (h : List.Forall₂ caseEquiv u v) :
    List.Forall₂ (List.Forall₂ caseEquiv) (sentencesOf u) (sentencesOf v) :=
  filter_nonempty_forall2 (map_pyStrip_forall2 (sentenceSplitAux_forall2 h [] [] false .nil))

theorem map_pySplit_cast_eq {ss ts : List (List Char)}
    (h : List.Forall₂ (List.Forall₂ caseEquiv) ss ts) :
    (ss.map fun s => ((pySplit s).length : ℝ)) = ts.map fun s => ((pySplit s).length : ℝ) := by
  induction h with
  | nil => rfl
  | cons h1 h2 ih => simp [pySplit_length_eq h1, ih]

theorem getBurstiness_eq_of_forall2 {ss ts : List (List Char)}
    (h : List.Forall₂ (List.Forall₂ caseEquiv) ss ts) :
    getBurstiness ss = getBurstiness ts := by
  have hl : (ss.filter fun s => !(pySplit s).isEmpty).map (fun s => (pySplit s).length) =
      (ts.filter fun s => !(pySplit s).isEmpty).map (fun s => (pySplit s).length) := by
    induction h with
    | nil => rfl
    | @cons a b as bs h1 h2 ih =>
      simp only [List.filter_cons]
      rw [isEmpty_eq_of_forall2 (pySplit_forall2 h1)]
      cases hb : (pySplit b).isEmpty
      · simp [pySplit_length_eq h1, ih]
      · simpa using ih
  simp only [getBurstiness, hl]

/-- Texts that differ only in ASCII letter case produce the same feature
dictionary, except possibly at `uppercase_ratio`. -/
theorem featuresOf_caseEquiv {u v : List Char} (h : List.Forall₂ caseEquiv u v) :
    ∃ vc vb vr vd vs vp vu1 vu2 vg ve : ℝ,
      featuresOf u =
        [("complexity", vc), ("burstiness", vb), ("repetition", vr), ("diversity", vd),
         ("stopword_ratio", vs), ("punctuation_density", vp), ("uppercase_ratio", vu1),
         ("digit_ratio", vg), ("entropy", ve)] ∧
      featuresOf v =
        [("complexity", vc), ("burstiness", vb), ("repetition", vr), ("diversity", vd),
         ("stopword_ratio", vs), ("punctuation_density", vp), ("uppercase_ratio", vu2),
         ("digit_ratio", vg), ("entropy", ve)] := by
  obtain ⟨vc, vb, vr, vd, vs, vp, vu1, vg, ve, hfu, -, -, -, -, -, -, -, -, -⟩ :=
    featuresOf_shape u
  have htok : tokensOf v = tokensOf u := by
    unfold tokensOf wordFindall
    rw [pyLower_eq_of_forall2 h]
  have htl : tokenLengthsOf v = tokenLengthsOf u := by
    unfold tokenLengthsOf
    rw [htok]
  have hsent := sentencesOf_forall2 h
  have hsl : ((sentencesOf v).map fun s => ((pySplit s).length : ℝ)) =
      (sentencesOf u).map fun s => ((pySplit s).length : ℝ) :=
    (map_pySplit_cast_eq hsent).symm
  have hse : (sentencesOf v).isEmpty = (sentencesOf u).isEmpty :=
    (isEmpty_eq_of_forall2 hsent).symm
  have hb : getBurstiness (sentencesOf v) = getBurstiness (sentencesOf u) :=
    (getBurstiness_eq_of_forall2 hsent).symm
  have hlen : v.length = u.length := h.length_eq.symm
  have hue : v.isEmpty = u.isEmpty := (isEmpty_eq_of_forall2 h).symm
  have hpc : v.countP isPunct = u.countP isPunct :=
    (countP_eq_of_forall2 (fun _ _ hab => isPunct_congr hab) h).symm
  have hdc : v.countP isPyDigit = u.countP isPyDigit :=
    (countP_eq_of_forall2 (fun _ _ hab => isPyDigit_congr hab) h).symm
  refine ⟨vc, vb, vr, vd, vs, vp, vu1,
    clamp01 ((v.countP isPyUpper : ℝ) / (if v.isEmpty then (1 : ℝ) else (v.length : ℝ))),
    vg, ve, hfu, ?_⟩
  unfold featuresOf at hfu ⊢
  simp only [extractFeatures] at hfu ⊢
  rw [htok, htl, hsl, hse, hb, hlen, hue, hpc, hdc]
  simp only [List.cons.injEq, Prod.mk.injEq, true_and, and_true, List.nil_eq] at hfu
  obtain ⟨h1, h2, h3, h4, h5, h6, h7, h8, h9⟩ := hfu
  rw [h1, h2, h3, h4, h5, h6, h8, h9]

/-- C9: predictions are invariant under changes of ASCII letter case:
for texts of equal length whose corresponding characters are identified
by ASCII lowercasing, `predict` returns the same AI probability, human
probability and label, and the same value for every feature other than
`uppercase_ratio`. -/
theorem claim9 {u v : List Char} (h : List.Forall₂ caseEquiv u v) :
    (predict u).ai_score = (predict v).ai_score ∧
    (predict u).human_score = (predict v).human_score ∧
    (predict u).label = (predict v).label ∧
    ∀ name : String, name ≠ "uppercase_ratio" →
      List.lookup name (predict u).features = List.lookup name (predict v).features := by
  obtain ⟨vc, vb, vr, vd, vs, vp, vu1, vu2, vg, ve, hfu, hfv⟩ := featuresOf_caseEquiv h
  have hau : (predict u).ai_score = sigmoid (scoreOf (featuresOf u)) := rfl
  have hav : (predict v).ai_score = sigmoid (scoreOf (featuresOf v)) := rfl
  have hai : (predict u).ai_score = (predict v).ai_score := by
    rw [hau, hav, hfu, hfv, scoreOf_explicit, scoreOf_explicit]
  have hhs : (predict u).human_score = (predict v).human_score := by
    have h1 : (predict u).human_score = 1 - (predict u).ai_score := rfl
    have h2 : (predict v).human_score = 1 - (predict v).ai_score := rfl
    rw [h1, h2, hai]
  have hlab : (predict u).label = (predict v).label := by
    have h1 : (predict u).label =
        (if (0.5 : ℝ) ≤ (predict u).ai_score then "AI-written" else "Human-written") := rfl
    have h2 : (predict v).label =
        (if (0.5 : ℝ) ≤ (predict v).ai_score then "AI-written" else "Human-written") := rfl
    rw [h1, h2, hai]
  refine ⟨hai, hhs, hlab, ?_⟩
  intro name hname
  have hfu2 : (predict u).features = featuresOf u := rfl
  have hfv2 : (predict v).features = featuresOf v := rfl
  rw [hfu2, hfv2, hfu, hfv]
  by_cases e1 : name = "complexity"
  · subst e1
    rfl
  by_cases e2 : name = "burstiness"
  · subst e2
    rfl
  by_cases e3 : name = "repetition"
  · subst e3
    rfl
  by_cases e4 : name = "diversity"
  · subst e4
    rfl
  by_cases e5 : name = "stopword_ratio"
  · subst e5
    rfl
  by_cases e6 : name = "punctuation_density"
  · subst e6
    rfl
  by_cases e8 : name = "digit_ratio"
  · subst e8
    rfl
  by_cases e9 : name = "entropy"
  · subst e9
    rfl
  have f1 : (name == "complexity") = false := beq_eq_false_iff_ne.mpr e1
  have f2 : (name == "burstiness") = false := beq_eq_false_iff_ne.mpr e2
  have f3 : (name == "repetition") = false := beq_eq_false_iff_ne.mpr e3
  have f4 : (name == "diversity") = false := beq_eq_false_iff_ne.mpr e4
  have f5 : (name == "stopword_ratio") = false := beq_eq_false_iff_ne.mpr e5
  have f6 : (name == "punctuation_density") = false := beq_eq_false_iff_ne.mpr e6
  have f7 : (name == "uppercase_ratio") = false := beq_eq_false_iff_ne.mpr hname
  have f8 : (name == "digit_ratio") = false := beq_eq_false_iff_ne.mpr e8
  have f9 : (name == "entropy") = false := beq_eq_false_iff_ne.mpr e9
  simp only [List.lookup, f1, f2, f3, f4, f5, f6, f7, f8, f9]

theorem claim9_witness :
    (predict "Ab".data).ai_score = (predict "aB".data).ai_score ∧
    List.lookup "burstiness" (predict "Ab".data).features =
      List.lookup "burstiness" (predict "aB".data).features :=
  ⟨(claim9 (.cons (by decide : lowerChar 'A' = lowerChar 'a')
      (.cons (by decide : lowerChar 'b' = lowerChar 'B') .nil))).1,
   (claim9 (.cons (by decide : lowerChar 'A' = lowerChar 'a')
      (.cons (by decide : lowerChar 'b' = lowerChar 'B') .nil))).2.2.2 "burstiness" (by decide)⟩

end Detector
